import Mathlib

/-!
Verification of the multi-object placement engine and projective utilities of
the `blender-dataset` repository (`blender_dataset/handlers.py`,
`blender_dataset/utils.py`, `blender_dataset/generator.py`).

The Python code is shallowly embedded: the numpy `RandomState` stream shared
through `Generator.rng` is modelled as a list of pre-drawn uniform rationals,
Blender scene objects become explicit records, and the external collaborators
(the `cv2` rasterizer, `bpy_extras` camera-view projection, `mathutils`
bounding-volume tests) are abstracted as explicit function parameters, since
they live outside this repository.  All control flow of the repository's own
functions is translated statement by statement.
-/

namespace BlenderDataset

attribute [local semireducible] Rat.mul Rat.add Rat.sub Rat.inv

/-- A 3-vector of rationals, standing for a Blender `Vector` / numpy length-3
array (location, Euler rotation, bound-box corner, ...). -/
abbrev Vec3 : Type := ℚ × ℚ × ℚ

/-- A pixel coordinate `(x, y)`. -/
abbrev Pix : Type := ℕ × ℕ

/-- Model of the shared numpy `RandomState` stream (`Generator.rng`,
`generator.py` line 43): a list of pre-drawn uniform values in `[0, 1)`,
consumed front to back.  Runs of interest supply enough draws; an exhausted
stream yields `0` (a model artifact, never reached in the concrete runs used
below). -/
abbrev RngState : Type := List ℚ

/-- One uniform draw from the stream. -/
def drawUniform (s : RngState) : ℚ × RngState :=
  (s.headD 0, s.drop 1)

/-- Model of `rng.uniform(lo, hi)` for length-3 bounds: three scalar draws,
each scaled into the corresponding `[lo, hi]` component (numpy draws
`lo + d * (hi - lo)` with `d` uniform on `[0, 1)`). -/
def drawUniform3 (lo hi : Vec3) (s : RngState) : Vec3 × RngState :=
  let p1 := drawUniform s
  let p2 := drawUniform p1.2
  let p3 := drawUniform p2.2
  ((lo.1 + p1.1 * (hi.1 - lo.1),
    lo.2.1 + p2.1 * (hi.2.1 - lo.2.1),
    lo.2.2 + p3.1 * (hi.2.2 - lo.2.2)), p3.2)

/-- Model of one bounded-integer draw `randint(0, bound)` used inside the
numpy shuffle: one stream value scaled to `{0, ..., bound - 1}`. -/
def drawIndex (bound : ℕ) (s : RngState) : ℕ × RngState :=
  let p := drawUniform s
  (min (Int.toNat ⌊p.1 * bound⌋) (bound - 1), p.2)

/-- Swap the entries at positions `i` and `j` of a list. -/
def swapAt (l : List ℕ) (i j : ℕ) : List ℕ :=
  (l.set i (l.getD j 0)).set j (l.getD i 0)

/-- Fisher-Yates loop of `rng.shuffle` (`handlers.py` line 193): numpy walks
the indices `n-1, ..., 1`, drawing `j = randint(0, i + 1)` and swapping
positions `i` and `j`.  The first argument is the current top index `i`. -/
def shuffleGo : ℕ → List ℕ → RngState → List ℕ × RngState
  | 0, l, s => (l, s)
  | i + 1, l, s =>
    let p := drawIndex (i + 2) s
    shuffleGo i (swapAt l (i + 1) p.1) p.2

/-- Model of `rng.shuffle` on a list of object indices: a deterministic
Fisher-Yates permutation driven by the shared stream. -/
def shuffle (l : List ℕ) (s : RngState) : List ℕ × RngState :=
  shuffleGo (l.length - 1) l s

/-- Result of `np.array` applied to an optional range argument
(`handlers.py` line 121, `self._location_range = np.array(location_range)`):
`np.array(None)` is a 0-dimensional object array, which is *not* `None`. -/
inductive NpArr (α : Type) : Type where
  | arr : α → NpArr α
  | noneArr : NpArr α
deriving DecidableEq

/-- Model of `np.array` on an optional value. -/
def npArray {α : Type} : Option α → NpArr α
  | some a => .arr a
  | none => .noneArr

/-- An ndarray compared with `is not None` is always not `None` — also the
0-dimensional array produced by `np.array(None)`. -/
def NpArr.isNotNone {α : Type} : NpArr α → Bool := fun _ => true

/-- The per-object Blender state the placement engine reads and writes:
`location`, `rotation_euler`, `hide_viewport`, `hide_render`. -/
structure ObjState : Type where
  location : Vec3
  rotationEuler : Vec3
  hideViewport : Bool
  hideRender : Bool
deriving DecidableEq, Inhabited

/-- The configuration stored by `PlaceMultipleObjectsHandler.__init__`
(`handlers.py` lines 120-141).  `locationRange` is stored through `np.array`
(line 121) while `rotationEulerRange` is stored as passed (line 122). -/
structure StoredConfig : Type where
  locationRange : NpArr (Vec3 × Vec3)
  rotationEulerRange : Option (Vec3 × Vec3)
  bounds : Option (Vec3 × Vec3)
  intersection3d : Bool
  intersection2d : Bool
  maxCornersOutsideImage : Option ℕ
  makeMap2d : Bool
  randomAttemptCount : ℕ
  breakOnFirstFailed : Bool
  imageSize : ℕ × ℕ

/-- `PlaceMultipleObjectsHandler.__init__`: the user-facing arguments, with
`location_range` wrapped in `np.array`. -/
def initConfig (locationRange rotationEulerRange bounds : Option (Vec3 × Vec3))
    (intersection3d intersection2d : Bool) (maxCornersOutsideImage : Option ℕ)
    (makeMap2d : Bool) (randomAttemptCount : ℕ) (breakOnFirstFailed : Bool)
    (imageSize : ℕ × ℕ) : StoredConfig :=
  { locationRange := npArray locationRange
    rotationEulerRange := rotationEulerRange
    bounds := bounds
    intersection3d := intersection3d
    intersection2d := intersection2d
    maxCornersOutsideImage := maxCornersOutsideImage
    makeMap2d := makeMap2d
    randomAttemptCount := randomAttemptCount
    breakOnFirstFailed := breakOnFirstFailed
    imageSize := imageSize }

/-- Lines 202-203: `if self._location_range is not None: obj.location =
rng.uniform(*self._location_range)`.  The `is not None` test is made on the
`np.array` result, so it always succeeds; unpacking the 0-dimensional array
produced by `np.array(None)` raises a `TypeError`, modelled as `.error ()`. -/
def sampleLocation (r : NpArr (Vec3 × Vec3)) (obj : ObjState) (s : RngState) :
    Except Unit (ObjState × RngState) :=
  if r.isNotNone then
    match r with
    | .arr (lo, hi) =>
      let p := drawUniform3 lo hi s
      .ok ({ obj with location := p.1 }, p.2)
    | .noneArr => .error ()
  else
    .ok (obj, s)

/-- Lines 205-206: `if self._rotation_euler_range is not None:
obj.rotation_euler = rng.uniform(*self._rotation_euler_range)` — this range
is stored without the `np.array` wrapper, so the `None` check works. -/
def sampleRotation (r : Option (Vec3 × Vec3)) (obj : ObjState) (s : RngState) :
    ObjState × RngState :=
  match r with
  | some (lo, hi) =>
    let p := drawUniform3 lo hi s
    ({ obj with rotationEuler := p.1 }, p.2)
  | none => (obj, s)

/-- The pose-sampling prefix of one placement attempt (`handlers.py` lines
202-206): draw the location (if the stored range allows), then the
rotation. -/
def samplePose (cfg : StoredConfig) (obj : ObjState) (s : RngState) :
    Except Unit (ObjState × RngState) :=
  match sampleLocation cfg.locationRange obj s with
  | .error e => .error e
  | .ok (o1, s1) => .ok (sampleRotation cfg.rotationEulerRange o1 s1)

/-- One event of random-stream consumption inside
`PlaceMultipleObjectsHandler.on_image_begin`: the single permutation draw of
the object indices (line 193), or the pose draw of one attempt for one object
(lines 202-206). -/
inductive DrawEvent : Type where
  | permDraw : DrawEvent
  | poseDraw : ℕ → ℕ → DrawEvent
deriving DecidableEq

/-- The geometric collaborators the engine calls, abstracted as functions:
`_is_in_bounds` (its full definition is embedded separately as
`isInBoundsCode`), `utils.compute_convex_hull_on_image`, the `cv2.fillPoly`
pixel footprint of a polygon, and `utils.is_mesh_intersecting([obj], placed)`.
They are pure functions of the object index, its current state and (for the
mesh test) the already-placed objects with their states. -/
structure GeomModel : Type where
  isInBoundsAt : ℕ → ObjState → Bool
  hullAt : ℕ → ObjState → List (ℤ × ℤ)
  rasterize : List (ℤ × ℤ) → Finset Pix
  meshIntersecting : ℕ → ObjState → List (ℕ × ObjState) → Bool

/-- The mutable state threaded through one `on_image_begin` call: the scene
(one `ObjState` per configured object, in the constructor's object order), the
random stream, `self._map2d`, the local `successfully_placed` list (as object
indices, in acceptance order), the shuffled `object_indices`, and the trace of
random-stream consumption events. -/
structure EngineSt : Type where
  scene : List ObjState
  rng : RngState
  map2d : Option (Pix → ℕ)
  placed : List ℕ
  order : List ℕ
  trace : List DrawEvent
deriving Inhabited

/-- Line 182: `is_map2d_required = self._make_map2d or not self._intersection_2d`. -/
def isMap2dRequired (cfg : StoredConfig) : Bool :=
  cfg.makeMap2d || !cfg.intersection2d

/-- Line 185: the fresh occupancy map `np.zeros(image_size[::-1], np.int32)`,
and `cv2.fillPoly(m, polygon, color=label)`: every pixel of the polygon's
raster footprint is overwritten with `label`. -/
def fillPoly (raster : Finset Pix) (label : ℕ) (m : Pix → ℕ) : Pix → ℕ :=
  fun p => if p ∈ raster then label else m p

/-- Lines 229-231: rasterize the candidate hull into a scratch buffer and
test `np.logical_and(scratch, self._map2d).any()` — true when some pixel of
the footprint is already nonzero in the map. -/
def overlapsMap (raster : Finset Pix) (m : Pix → ℕ) : Bool :=
  decide (∃ p ∈ raster, m p ≠ 0)

/-- Lines 216-220: count the hull corners outside `[0, w) x [0, h)`. -/
def cornersOutsideCount (imageSize : ℕ × ℕ) (hull : List (ℤ × ℤ)) : ℕ :=
  (hull.filter fun p =>
    p.1 < 0 || p.2 < 0 || (imageSize.1 : ℤ) ≤ p.1 || (imageSize.2 : ℤ) ≤ p.2).length

/-- The `successfully_placed` list as the engine hands it to
`is_mesh_intersecting`: the placed objects (live references, hence their
current scene states). -/
def placedPairs (st : EngineSt) : List (ℕ × ObjState) :=
  st.placed.map fun i => (i, st.scene.getD i default)

/-- The acceptance condition of one attempt, `handlers.py` lines 210-232: the
object must be in bounds (line 210), the hull corners outside the image must
not exceed the optional budget (lines 215-223), with `intersection_3d` false
the object must not mesh-intersect the placed set (lines 225-226), and with
`intersection_2d` false its raster footprint must not hit a nonzero map pixel
(lines 228-232).  The checks are pure, so the source's sequence of `continue`
statements is their conjunction. -/
def checksPass (geom : GeomModel) (cfg : StoredConfig) (oi : ℕ) (obj : ObjState)
    (placed : List (ℕ × ObjState)) (map2d : Option (Pix → ℕ)) : Bool :=
  geom.isInBoundsAt oi obj &&
  (match cfg.maxCornersOutsideImage with
   | some budget =>
     decide (cornersOutsideCount cfg.imageSize (geom.hullAt oi obj) ≤ budget)
   | none => true) &&
  (cfg.intersection3d || !geom.meshIntersecting oi obj placed) &&
  (cfg.intersection2d ||
    !overlapsMap (geom.rasterize (geom.hullAt oi obj)) (map2d.getD fun _ => 0))

/-- One iteration of the attempt loop (`handlers.py` lines 201-241):
draw the pose (lines 202-206), apply it to the scene, and either reject
(`continue`, second component `false`) or accept — append the object to
`successfully_placed` and, if the map is required, fill its hull footprint
with `obj_i + 1` (lines 235-241). -/
def attempt (geom : GeomModel) (cfg : StoredConfig) (oi a : ℕ) (st : EngineSt) :
    Except Unit (EngineSt × Bool) :=
  match samplePose cfg (st.scene.getD oi default) st.rng with
  | .error e => .error e
  | .ok (obj1, rng1) =>
    let st1 : EngineSt :=
      { st with
          scene := st.scene.set oi obj1
          rng := rng1
          trace := st.trace ++ [DrawEvent.poseDraw oi a] }
    if checksPass geom cfg oi obj1 (placedPairs st1) st1.map2d then
      .ok ({ st1 with
              placed := st1.placed ++ [oi]
              map2d :=
                if isMap2dRequired cfg then
                  st1.map2d.map
                    (fillPoly (geom.rasterize (geom.hullAt oi obj1)) (oi + 1))
                else st1.map2d }, true)
    else
      .ok (st1, false)

/-- The attempt loop `for attempt_i in range(self._random_attempt_count)`:
first argument is the number of remaining attempts, second the current
attempt index.  Returns the state and whether the object was placed. -/
def attemptsLoop (geom : GeomModel) (cfg : StoredConfig) (oi : ℕ) :
    ℕ → ℕ → EngineSt → Except Unit (EngineSt × Bool)
  | 0, _, st => .ok (st, false)
  | n + 1, a, st =>
    match attempt geom cfg oi a st with
    | .error e => .error e
    | .ok (st1, true) => .ok (st1, true)
    | .ok (st1, false) => attemptsLoop geom cfg oi n (a + 1) st1

/-- Set both hide flags of object `oi` (lines 189-190, 198-199, 244-245). -/
def setHideFlags (scene : List ObjState) (oi : ℕ) (b : Bool) : List ObjState :=
  scene.set oi
    { scene.getD oi default with hideViewport := b, hideRender := b }

/-- The body of `for obj_i in object_indices` (lines 195-247): unhide the
object, run the attempt loop, and on failure re-hide it.  Returns `is_placed`
so the caller can apply `break_on_first_failed`. -/
def placeOne (geom : GeomModel) (cfg : StoredConfig) (oi : ℕ) (st : EngineSt) :
    Except Unit (EngineSt × Bool) :=
  match attemptsLoop geom cfg oi cfg.randomAttemptCount 0
      { st with scene := setHideFlags st.scene oi false } with
  | .error e => .error e
  | .ok (st1, true) => .ok (st1, true)
  | .ok (st1, false) =>
    .ok ({ st1 with scene := setHideFlags st1.scene oi true }, false)

/-- The outer loop over the shuffled object indices, with the
`break_on_first_failed` early exit (lines 246-247). -/
def objectsLoop (geom : GeomModel) (cfg : StoredConfig) :
    List ℕ → EngineSt → Except Unit EngineSt
  | [], st => .ok st
  | oi :: rest, st =>
    match placeOne geom cfg oi st with
    | .error e => .error e
    | .ok (st1, isPlaced) =>
      if !isPlaced && cfg.breakOnFirstFailed then .ok st1
      else objectsLoop geom cfg rest st1

/-- The fresh occupancy map of line 185 (`np.zeros`), allocated only when
`is_map2d_required` (line 184). -/
def initialMap (cfg : StoredConfig) : Option (Pix → ℕ) :=
  if isMap2dRequired cfg then some fun _ => 0 else none

/-- Lines 188-190: hide every configured object before placement. -/
def hideAll (scene : List ObjState) : List ObjState :=
  scene.map fun o => { o with hideViewport := true, hideRender := true }

/-- `PlaceMultipleObjectsHandler.on_image_begin` (lines 181-247): allocate
the map if required, hide all objects, shuffle the object indices through the
shared stream (the single permutation draw, recorded first in the trace), and
process the objects in shuffled order. -/
def onImageBegin (geom : GeomModel) (cfg : StoredConfig) (scene : List ObjState)
    (rng : RngState) : Except Unit EngineSt :=
  let p := shuffle (List.range scene.length) rng
  objectsLoop geom cfg p.1
    { scene := hideAll scene
      rng := p.2
      map2d := initialMap cfg
      placed := []
      order := p.1
      trace := [DrawEvent.permDraw] }

/-- The attempt-loop pose evolution in isolation: iterate the pose-sampling
step (lines 202-206) `n` times on one object.  Every attempt starts by
drawing and applying a fresh pose, so after `n` failed attempts the object
carries exactly this iterated pose. -/
def iteratePose (cfg : StoredConfig) :
    ℕ → ObjState → RngState → Except Unit (ObjState × RngState)
  | 0, o, s => .ok (o, s)
  | n + 1, o, s =>
    match samplePose cfg o s with
    | .error e => .error e
    | .ok (o1, s1) => iteratePose cfg n o1 s1

/-- The handler's own persistent state: its stored configuration and the
`self._map2d` attribute exposed by the public `map2d` property
(`handlers.py` lines 143-152), `None` until a map is first built. -/
structure HandlerState : Type where
  cfg : StoredConfig
  map2d : Option (Pix → ℕ)

/-- The handler-level `on_image_begin`: run the placement and store the final
occupancy map in `self._map2d` when one was required; otherwise line 185 is
skipped and the attribute keeps its previous value. -/
def handlerOnImageBegin (geom : GeomModel) (h : HandlerState)
    (scene : List ObjState) (rng : RngState) :
    Except Unit (HandlerState × EngineSt) :=
  match onImageBegin geom h.cfg scene rng with
  | .error e => .error e
  | .ok r =>
    .ok ({ h with map2d := if isMap2dRequired h.cfg then r.map2d else h.map2d }, r)

/-- `PlaceMultipleObjectsHandler` overrides no `on_image_end`, so the base
`Handler.on_image_end` (`handlers.py` lines 57-63) runs: `pass`. -/
def handlerOnImageEnd (h : HandlerState) : HandlerState :=
  h

/-- An affine world transform (`matrix_world`): a 3x3 linear part plus a
translation, applied as `M v + t`. -/
structure Aff3 : Type where
  m11 : ℚ
  m12 : ℚ
  m13 : ℚ
  m21 : ℚ
  m22 : ℚ
  m23 : ℚ
  m31 : ℚ
  m32 : ℚ
  m33 : ℚ
  t1 : ℚ
  t2 : ℚ
  t3 : ℚ
deriving DecidableEq

/-- Apply an affine transform to a point. -/
def Aff3.apply (A : Aff3) (v : Vec3) : Vec3 :=
  (A.m11 * v.1 + A.m12 * v.2.1 + A.m13 * v.2.2 + A.t1,
   A.m21 * v.1 + A.m22 * v.2.1 + A.m23 * v.2.2 + A.t2,
   A.m31 * v.1 + A.m32 * v.2.1 + A.m33 * v.2.2 + A.t3)

/-- The identity transform. -/
def Aff3.id : Aff3 :=
  ⟨1, 0, 0, 0, 1, 0, 0, 0, 1, 0, 0, 0⟩

/-- A pure translation. -/
def Aff3.translation (t : Vec3) : Aff3 :=
  ⟨1, 0, 0, 0, 1, 0, 0, 0, 1, t.1, t.2.1, t.2.2⟩

/-- A Blender scene-graph node as the bounds check reads it: its world
matrix, its local `bound_box` corners, and its children. -/
inductive BObj : Type where
  | node : Aff3 → List Vec3 → List BObj → BObj

/-- The `matrix_world` of a node. -/
def BObj.matrixWorld : BObj → Aff3
  | .node m _ _ => m

/-- The local `bound_box` corners of a node. -/
def BObj.boundBox : BObj → List Vec3
  | .node _ b _ => b

/-- The children of a node. -/
def BObj.children : BObj → List BObj
  | .node _ _ c => c

mutual

/-- `utils.flatten_object_hierarchy` (`utils.py` lines 109-125): preorder
traversal collecting the object and all descendants. -/
def flattenObjectHierarchy : BObj → List BObj
  | .node m b cs => .node m b cs :: flattenObjectHierarchyList cs

/-- Preorder traversal of a list of sibling subtrees. -/
def flattenObjectHierarchyList : List BObj → List BObj
  | [] => []
  | o :: os => flattenObjectHierarchy o ++ flattenObjectHierarchyList os

end

/-- Whether some component of `a` is less than the matching component of `b`
(one elementwise comparison feeding `np.logical_or ... np.any`). -/
def vec3AnyLt (a b : Vec3) : Bool :=
  a.1 < b.1 || a.2.1 < b.2.1 || a.2.2 < b.2.2

/-- `PlaceMultipleObjectsHandler._is_in_bounds` (`handlers.py` lines
154-179) as written: with no bounds configured the check passes; otherwise
every `bound_box` corner `p` of the object and of each descendant `o` is
transformed by `obj.matrix_world` — the ROOT object's matrix, since the inner
loop's line 171 reads `obj.matrix_world * Vector(p)`, not `o.matrix_world` —
and the object is out of bounds when any transformed corner has a component
strictly below the lower bound or strictly above the upper bound. -/
def isInBoundsCode (bounds : Option (Vec3 × Vec3)) (root : BObj) : Bool :=
  match bounds with
  | none => true
  | some (lb, ub) =>
    let objects := flattenObjectHierarchy root
    let points := objects.flatMap fun o =>
      o.boundBox.map fun p => root.matrixWorld.apply p
    !(points.any fun p => vec3AnyLt p lb || vec3AnyLt ub p)

/-- Modelled from the spec: the containment check the spec describes — each
bounding-box corner is "transformed to world space", i.e. by the OWNING
node's world matrix (as the sibling `utils.project_bounding_box_on_image`
does with `o.matrix_world @ Vector(p)` on line 139 of `utils.py`).  This is
the intended behaviour against which the code's use of the root matrix is
compared. -/
def isInBoundsSpecIntended (bounds : Option (Vec3 × Vec3)) (root : BObj) : Bool :=
  match bounds with
  | none => true
  | some (lb, ub) =>
    let objects := flattenObjectHierarchy root
    let points := objects.flatMap fun o =>
      o.boundBox.map fun p => o.matrixWorld.apply p
    !(points.any fun p => vec3AnyLt p lb || vec3AnyLt ub p)

/-- The render settings the utilities read: `resolution_x`, `resolution_y`
and `resolution_percentage`. -/
structure RenderSettings : Type where
  resolutionX : ℕ
  resolutionY : ℕ
  resolutionPercentage : ℕ
deriving DecidableEq

/-- The camera data `get_camera_intrinsics` reads: `camera.data.lens` and
`camera.data.sensor_width`. -/
structure CameraData : Type where
  lens : ℚ
  sensorWidth : ℚ
deriving DecidableEq

/-- A Blender scene as the camera utilities see it: render settings plus the
data block of `scene.camera`.  `bpy.context.scene` is modelled as an explicit
scene argument (Blender always has a context scene). -/
structure BScene : Type where
  render : RenderSettings
  cameraData : CameraData
deriving DecidableEq

/-- The intrinsics matrix built on `utils.py` lines 59-63:
rows `[fx, 0, cx]`, `[0, fy, cy]`, `[0, 0, 1]` with `fx = fy =
focal_length_pix`. -/
structure Intrinsics : Type where
  fx : ℚ
  fy : ℚ
  cx : ℚ
  cy : ℚ
deriving DecidableEq

/-- `utils.get_camera_intrinsics` (`utils.py` lines 39-65): default the
scene to the context scene and the camera to the scene camera, raise
`ValueError` when `resolution_percentage != 100`, default the image size from
the CONTEXT scene's render settings (line 50), and return the pinhole
intrinsics `focal_length / sensor_width * width` with principal point
`(image_size - 1) / 2`. -/
def getCameraIntrinsics (ctxScene : BScene) (camera : Option CameraData)
    (scene : Option BScene) (imageSize : Option (ℕ × ℕ)) :
    Except String (Intrinsics × (ℕ × ℕ)) :=
  let sc := scene.getD ctxScene
  let cam := camera.getD sc.cameraData
  if sc.render.resolutionPercentage ≠ 100 then
    .error "resolution_percentage != 100 is not supported"
  else
    let isz := imageSize.getD (ctxScene.render.resolutionX, ctxScene.render.resolutionY)
    let focalLengthPix : ℚ := cam.lens / cam.sensorWidth * isz.1
    .ok ({ fx := focalLengthPix
           fy := focalLengthPix
           cx := ((isz.1 : ℚ) - 1) / 2
           cy := ((isz.2 : ℚ) - 1) / 2 }, isz)

/-- The shape classes of the numpy array built from `world_location` on
`utils.py` line 80: a 0-dimensional scalar, a 1-dimensional vector, a
2-dimensional (rectangular) matrix given as its rows, or an array of
dimension 3 or higher. -/
inductive NpIn : Type where
  | d0 : ℚ → NpIn
  | d1 : List ℚ → NpIn
  | d2 : List (List ℚ) → NpIn
  | d3plus : NpIn

/-- The row width `shape[1]` of a rectangular 2-dimensional array given by
its rows. -/
def rowWidth (rows : List (List ℚ)) : ℕ :=
  (rows.headD []).length

/-- The result of `world_to_image`: a flat `(2,)` pair for 1-dimensional
input (line 103-104 reshape), or one `(x, y)` row per input row. -/
inductive W2IResult : Type where
  | flat : ℚ × ℚ → W2IResult
  | rows : List (ℚ × ℚ) → W2IResult
deriving DecidableEq

/-- The per-point pipeline of `utils.world_to_image` after the external
`bpy_extras.object_utils.world_to_camera_view` call (modelled by the
`camView` parameter, returning normalized view coordinates): flip vertically
(`image_location * (1, -1) + (0, 1)`, line 96), scale by
`(resolution_x, resolution_y) * resolution_percentage / 100` (lines 92-93),
and subtract `0.5` on both axes (line 101). -/
def w2iPoint (camView : List ℚ → ℚ × ℚ) (render : RenderSettings)
    (v : List ℚ) : ℚ × ℚ :=
  let im := camView v
  let renderScale : ℚ := (render.resolutionPercentage : ℚ) / 100
  let sizeX : ℚ := (render.resolutionX : ℚ) * renderScale
  let sizeY : ℚ := (render.resolutionY : ℚ) * renderScale
  ((im.1 * 1 + 0) * sizeX - 1 / 2, (im.2 * (-1) + 1) * sizeY - 1 / 2)

/-- `utils.world_to_image` (`utils.py` lines 68-106).  The validation on
lines 81-83 raises `ValueError` exactly when `ndim < 1`, `ndim > 2`, or
`ndim == 2` with `shape[1] != 3`; a 1-dimensional input of ANY length passes.
A 1-dimensional input yields a flat pair (the final reshape), a 2-dimensional
input one projected pair per row. -/
def worldToImage (camView : List ℚ → ℚ × ℚ) (render : RenderSettings) :
    NpIn → Except String W2IResult
  | .d0 _ => .error "world_location must be a (3,) or (n, 3) array-like"
  | .d3plus => .error "world_location must be a (3,) or (n, 3) array-like"
  | .d1 v => .ok (.flat (w2iPoint camView render v))
  | .d2 rows =>
    if rowWidth rows ≠ 3 then
      .error "world_location must be a (3,) or (n, 3) array-like"
    else
      .ok (.rows (rows.map (w2iPoint camView render)))

/-- The raster footprint of object `i`'s silhouette at its current state in
`st` — what `cv2.fillPoly` covers for `compute_convex_hull_on_image(obj)`. -/
def rastAt (geom : GeomModel) (st : EngineSt) (i : ℕ) : Finset Pix :=
  geom.rasterize (geom.hullAt i (st.scene.getD i default))

/-- The occupancy-map value at a pixel (`0` when no map was allocated). -/
def mapAt (st : EngineSt) (p : Pix) : ℕ :=
  (st.map2d.getD fun _ => 0) p

/-- Every nonzero map pixel carries the label `i + 1` of a placed object `i`
(its index in the handler's configured object list) and lies in that object's
raster footprint. -/
def MapLabels (geom : GeomModel) (st : EngineSt) : Prop :=
  ∀ p : Pix, mapAt st p ≠ 0 →
    ∃ i ∈ st.placed, mapAt st p = i + 1 ∧ p ∈ rastAt geom st i

/-- Every placed object's raster footprint is marked nonzero in the map. -/
def PlacedCovered (geom : GeomModel) (st : EngineSt) : Prop :=
  ∀ i ∈ st.placed, ∀ p ∈ rastAt geom st i, mapAt st p ≠ 0

/-- The raster footprints of the placed objects are pairwise disjoint. -/
def PlacedDisjoint (geom : GeomModel) (st : EngineSt) : Prop :=
  st.placed.Pairwise fun i j => Disjoint (rastAt geom st i) (rastAt geom st j)

/-- The engine-state invariant maintained across the object loop: the map
exists exactly when required, its labels point at placed objects, and — when
2D overlap is disallowed — placed footprints are marked and pairwise
disjoint. -/
def StInv (geom : GeomModel) (cfg : StoredConfig) (st : EngineSt) : Prop :=
  st.map2d.isSome = isMap2dRequired cfg ∧
  MapLabels geom st ∧
  (cfg.intersection2d = false → PlacedCovered geom st ∧ PlacedDisjoint geom st)

/-- A concrete geometry model for the sample runs: every pose is in bounds,
object `i`'s hull is the single corner `(i, 0)`, a polygon rasterizes to its
own corner pixels, and meshes never intersect. -/
def geomProbe : GeomModel :=
  { isInBoundsAt := fun _ _ => true
    hullAt := fun i _ => [((i : ℤ), 0)]
    rasterize := fun poly => (poly.map fun p => (p.1.toNat, p.2.toNat)).toFinset
    meshIntersecting := fun _ _ _ => false }

/-- A sample configuration with 2D overlap disallowed: a degenerate location
range at the origin, no rotation range, no bounds, one attempt, two-pixel
image. -/
def cfgProbe : StoredConfig :=
  initConfig (some ((0, 0, 0), (0, 0, 0))) none none true false none false 1 false (2, 2)

/-- A two-object scene at default states. -/
def sceneProbe : List ObjState :=
  [default, default]

/-- A stream whose first draw is `0`: the Fisher-Yates step swaps positions
`1` and `0`, so the shuffled processing order of the two objects is
`[1, 0]`. -/
def rngProbe : RngState :=
  [0]

/-- The final engine state of the sample run (the run succeeds, so this is
its `.ok` payload). -/
def runProbe : EngineSt :=
  (onImageBegin geomProbe cfgProbe sceneProbe rngProbe).toOption.getD default

/-- The occupancy map of the sample run. -/
def mProbe : Pix → ℕ :=
  runProbe.map2d.getD fun _ => 0

/-- The handler before the sample image: configured, no map yet. -/
def hProbe : HandlerState :=
  ⟨cfgProbe, none⟩

/-- Handler state and engine result after `on_image_begin` on the sample
run. -/
def handlerRunProbe : HandlerState × EngineSt :=
  (handlerOnImageBegin geomProbe hProbe sceneProbe rngProbe).toOption.getD ⟨hProbe, default⟩

/-- A trivial configuration with no 2D constraints (no map required). -/
def cfgTriv : StoredConfig :=
  initConfig (some ((0, 0, 0), (0, 0, 0))) none none true true none false 1 false (1, 1)

/-- The final engine state of the empty-scene run: untouched scene, the
stream after the (empty) permutation draw, no map, and the trace holding the
permutation event only. -/
def runTriv : EngineSt :=
  ⟨[], [], none, [], [], [DrawEvent.permDraw]⟩

/-- A geometry model that rejects every candidate pose (never in bounds). -/
def geomRej : GeomModel :=
  { isInBoundsAt := fun _ _ => false
    hullAt := fun _ _ => []
    rasterize := fun _ => ∅
    meshIntersecting := fun _ _ _ => false }

/-- A configuration with two attempts and the unit location range. -/
def cfgRej : StoredConfig :=
  initConfig (some ((0, 0, 0), (1, 1, 1))) none none true true none false 2 false (2, 2)

/-- A one-object engine state with six distinct pending draws. -/
def stRej : EngineSt :=
  ⟨[default], [1/2, 1/3, 1/4, 1/5, 1/6, 1/7], none, [], [0], [DrawEvent.permDraw]⟩

/-- The state after the (failing) placement of object `0` from `stRej`. -/
def stRej' : EngineSt :=
  ((placeOne geomRej cfgRej 0 stRej).toOption.getD (default, false)).1

/-- The eight local bound-box corners of a cube of half-size `1/10`. -/
def boxProbe : List Vec3 :=
  [(-1/10, -1/10, -1/10), (-1/10, -1/10, 1/10), (-1/10, 1/10, -1/10),
   (-1/10, 1/10, 1/10), (1/10, -1/10, -1/10), (1/10, -1/10, 1/10),
   (1/10, 1/10, -1/10), (1/10, 1/10, 1/10)]

/-- A root at the origin with one child translated to `x = 10`: the child's
world-space corners lie far outside the probe bounds below. -/
def objC3 : BObj :=
  .node Aff3.id boxProbe [.node (Aff3.translation (10, 0, 0)) boxProbe []]

/-- Containment bounds: the cube `[-1, 1]` on each axis. -/
def boundsC3 : Option (Vec3 × Vec3) :=
  some ((-1, -1, -1), (1, 1, 1))

/-- A camera-view model that sends every point to the normalized view center
`(1/2, 1/2)` — the value `world_to_camera_view` returns for points on the
camera's principal axis. -/
def camViewW : List ℚ → ℚ × ℚ :=
  fun _ => (1/2, 1/2)

/-- Render settings at full resolution scale. -/
def renderW : RenderSettings :=
  ⟨4, 3, 100⟩

/-- C3: the containment check, at a concrete failing input.  The claim (and
the spec) requires every bounding-box corner of the object AND its
descendants to be transformed to world space — i.e. by the owning node's
world matrix.  The code (`handlers.py` line 171) instead transforms every
corner by the root's `matrix_world`, so a child sitting at world `x = 10` is
judged to be inside the bounds `[-1, 1]^3`: the code accepts where the
intended check rejects. -/
theorem bounds_check_transforms_children_by_root_matrix :
    isInBoundsCode boundsC3 objC3 = true ∧
    isInBoundsSpecIntended boundsC3 objC3 = false := by
  exact ⟨by decide, by decide⟩

/-- C4: random-draw consumption of the pose-sampling step.  With both ranges
configured one attempt consumes exactly 6 draws (3 location + 3 rotation);
with the rotation range omitted it consumes exactly 3.  But with the location
range omitted (`location_range=None`) the attempt does NOT consume only the
rotation's 3 draws: `__init__` stores `np.array(None)`, which is not `None`,
so the guard passes and unpacking the 0-dimensional array raises `TypeError`
(the claim's "fewer draws (only the configured range's 3)" branch is
unreachable for the location side). -/
theorem pose_sampling_draw_consumption (cfg : StoredConfig)
    (lo1 hi1 lo2 hi2 : Vec3) (obj : ObjState) (s : RngState) :
    (samplePose
        { cfg with
            locationRange := npArray (some (lo1, hi1))
            rotationEulerRange := some (lo2, hi2) }
        obj s).map Prod.snd = .ok (s.drop 6) ∧
    (samplePose
        { cfg with
            locationRange := npArray (some (lo1, hi1))
            rotationEulerRange := none }
        obj s).map Prod.snd = .ok (s.drop 3) ∧
    samplePose
        { cfg with
            locationRange := npArray none
            rotationEulerRange := some (lo2, hi2) }
        obj s = .error () := by
  refine ⟨?_, ?_, ?_⟩ <;>
    simp [samplePose, sampleLocation, sampleRotation, npArray, NpArr.isNotNone,
      drawUniform3, drawUniform, List.drop_drop, Except.map]

/-- C6: computing camera intrinsics fails (with the `ValueError` of
`utils.py` line 48) exactly when the render-resolution percentage is not
100; at 100 it returns the pinhole focal length in pixels
(`lens / sensor_width * width`) on both diagonal entries and the
image-center principal point `(size - 1) / 2`. -/
theorem camera_intrinsics_error_iff_resolution_scaling (ctx : BScene)
    (cam : Option CameraData) (sc : Option BScene) (isz : Option (ℕ × ℕ)) :
    ((∃ e, getCameraIntrinsics ctx cam sc isz = .error e) ↔
      (sc.getD ctx).render.resolutionPercentage ≠ 100) ∧
    getCameraIntrinsics ctx cam sc isz =
      (if (sc.getD ctx).render.resolutionPercentage = 100 then
        .ok ({ fx := (cam.getD (sc.getD ctx).cameraData).lens /
                 (cam.getD (sc.getD ctx).cameraData).sensorWidth *
                 (isz.getD (ctx.render.resolutionX, ctx.render.resolutionY)).1
               fy := (cam.getD (sc.getD ctx).cameraData).lens /
                 (cam.getD (sc.getD ctx).cameraData).sensorWidth *
                 (isz.getD (ctx.render.resolutionX, ctx.render.resolutionY)).1
               cx := (((isz.getD (ctx.render.resolutionX, ctx.render.resolutionY)).1 : ℚ) - 1) / 2
               cy := (((isz.getD (ctx.render.resolutionX, ctx.render.resolutionY)).2 : ℚ) - 1) / 2 },
             isz.getD (ctx.render.resolutionX, ctx.render.resolutionY))
      else .error "resolution_percentage != 100 is not supported") := by
  unfold getCameraIntrinsics
  by_cases h : (sc.getD ctx).render.resolutionPercentage = 100 <;> simp [h]

/-- C7: with resolution scaling exactly 1 (percentage 100), a world point on
the camera's principal axis — one whose normalized camera-view coordinates
are `(1/2, 1/2)` — projects to the image center offset by `(-1/2, -1/2)`:
`(width / 2 - 1/2, height / 2 - 1/2)`, after the vertical flip, the scaling
by the image size, and the `0.5` subtraction. -/
theorem principal_axis_projects_to_image_center (camView : List ℚ → ℚ × ℚ)
    (render : RenderSettings) (v : List ℚ)
    (hscale : render.resolutionPercentage = 100)
    (hax : camView v = (1/2, 1/2)) :
    worldToImage camView render (.d1 v) =
      .ok (.flat ((render.resolutionX : ℚ) / 2 - 1/2,
                  (render.resolutionY : ℚ) / 2 - 1/2)) := by
  simp [worldToImage, w2iPoint, hax, hscale]
  constructor <;> ring

/-- Witness for C7 at a concrete camera: a 4x3 image at percentage 100 and a
principal-axis point, giving the center pixel `(3/2, 1)` —
`4/2 - 1/2 = 3/2` and `3/2 - 1/2 = 1`. -/
theorem principal_axis_projects_to_image_center_witness :
    worldToImage camViewW renderW (.d1 [0, 0, 0]) =
      .ok (.flat ((renderW.resolutionX : ℚ) / 2 - 1/2,
                  (renderW.resolutionY : ℚ) / 2 - 1/2)) :=
  principal_axis_projects_to_image_center camViewW renderW [0, 0, 0] rfl rfl

/-- C10, counterexample: the `(2,)`-shaped input `[0, 0]` is neither
`(3,)`-shaped nor `(n, 3)`-shaped, yet `world_to_image` does not raise — the
guard on `utils.py` line 82 only rejects `ndim < 1`, `ndim > 2` and 2-d rows
of width other than 3, so any 1-d length passes and a flat result is
returned. -/
theorem flat_input_of_wrong_length_accepted :
    worldToImage camViewW renderW (NpIn.d1 [0, 0]) = .ok (.flat (3/2, 1)) := rfl

/-- C10, amended: `world_to_image` raises `ValueError` exactly for 0-d
inputs, inputs of dimension 3 or more, and 2-d inputs whose row width is not
3; every 1-d input (of any length) yields a flat pair, and an `(n, 3)` input
yields one projected pair per row — `n` of them. -/
theorem world_to_image_shape_behaviour (camView : List ℚ → ℚ × ℚ)
    (render : RenderSettings) :
    (∀ x : ℚ, worldToImage camView render (.d0 x) =
      .error "world_location must be a (3,) or (n, 3) array-like") ∧
    worldToImage camView render .d3plus =
      .error "world_location must be a (3,) or (n, 3) array-like" ∧
    (∀ v : List ℚ, worldToImage camView render (.d1 v) =
      .ok (.flat (w2iPoint camView render v))) ∧
    (∀ rows : List (List ℚ), worldToImage camView render (.d2 rows) =
      if rowWidth rows = 3 then .ok (.rows (rows.map (w2iPoint camView render)))
      else .error "world_location must be a (3,) or (n, 3) array-like") ∧
    (∀ rows : List (List ℚ),
      (rows.map (w2iPoint camView render)).length = rows.length) := by
  refine ⟨fun x => rfl, rfl, fun v => rfl, fun rows => ?_, fun rows => by simp⟩
  by_cases h : rowWidth rows = 3 <;> simp [worldToImage, h]

/-- C2, counterexample: in the sample run the shuffle processes object `1`
first (processing order `[1, 0]`), and the pixel `(1, 0)` covered by that
first-processed object's silhouette is filled with `2` — the object's
1-based ORIGINAL list index — not with its processing-order label `1` as the
claim states. -/
theorem occupancy_label_is_not_processing_order :
    onImageBegin geomProbe cfgProbe sceneProbe rngProbe = .ok runProbe ∧
    runProbe.order = [1, 0] ∧
    runProbe.placed = [1, 0] ∧
    (1, 0) ∈ rastAt geomProbe runProbe 1 ∧
    mapAt runProbe (1, 0) = 2 ∧
    mapAt runProbe (1, 0) ≠ 1 := by
  exact ⟨rfl, by decide, by decide, by decide, by decide, by decide⟩

/-- C5, counterexample: the handler state after the image-end hook of the
sample run still holds the occupancy map built during that image's placement
call — `self._map2d` is never discarded, and its contents (pixel `(1, 0)`
carrying label `2`) stay observable through the public `map2d` property. -/
theorem occupancy_map_persists_after_image_end :
    handlerOnImageBegin geomProbe hProbe sceneProbe rngProbe = .ok handlerRunProbe ∧
    (handlerOnImageEnd handlerRunProbe.1).map2d.isSome = true ∧
    ((handlerOnImageEnd handlerRunProbe.1).map2d.getD fun _ => 0) (1, 0) = 2 := by
  exact ⟨rfl, by decide, by decide⟩

/-- C5, amended: the occupancy map is NOT discarded at image end — the
handler inherits the base `Handler.on_image_end`, which does nothing, so the
handler state (including `self._map2d`, which after a map-building placement
call holds that call's final map) persists unchanged across the image-end
hook, observable via the `map2d` property until the next placement call
overwrites it. -/
theorem image_end_leaves_handler_state (geom : GeomModel) (h : HandlerState)
    (scene : List ObjState) (rng : RngState) (h' : HandlerState) (r : EngineSt)
    (hb : handlerOnImageBegin geom h scene rng = .ok (h', r)) :
    handlerOnImageEnd h' = h' ∧
    (isMap2dRequired h.cfg = true → h'.map2d = r.map2d) := by
  refine ⟨rfl, fun hreq => ?_⟩
  unfold handlerOnImageBegin at hb
  cases hr2 : onImageBegin geom h.cfg scene rng with
  | error e => rw [hr2] at hb; cases hb
  | ok r2 =>
    rw [hr2] at hb
    injection hb with hb
    cases hb
    simp [hreq]

/-- Witness for the amended C5 at the sample run. -/
theorem image_end_leaves_handler_state_witness :
    handlerOnImageEnd handlerRunProbe.1 = handlerRunProbe.1 ∧
    (isMap2dRequired hProbe.cfg = true →
      handlerRunProbe.1.map2d = handlerRunProbe.2.map2d) :=
  image_end_leaves_handler_state geomProbe hProbe sceneProbe rngProbe
    handlerRunProbe.1 handlerRunProbe.2 rfl

/-- Setting one list entry trades the old entry's count contribution for the
new one's. -/
theorem count_set_add (l : List ℕ) : ∀ i : ℕ, i < l.length → ∀ b x : ℕ,
    (l.set i b).count x + (if l.getD i 0 = x then 1 else 0)
      = l.count x + (if b = x then 1 else 0) := by
  induction l with
  | nil => intro i hi; simp at hi
  | cons a t ih =>
    intro i hi b x
    cases i with
    | zero =>
      simp only [List.set_cons_zero, List.getD_cons_zero, List.count_cons, beq_iff_eq]
      split_ifs <;> omega
    | succ n =>
      have hn : n < t.length := by simpa using hi
      have h2 := ih n hn b x
      simp only [List.set_cons_succ, List.getD_cons_succ, List.count_cons, beq_iff_eq] at h2 ⊢
      split_ifs at h2 ⊢ <;> omega

/-- Swapping two in-range entries permutes the list. -/
theorem swapAt_perm (l : List ℕ) (i j : ℕ) (hi : i < l.length) (hj : j < l.length) :
    (swapAt l i j).Perm l := by
  rw [List.perm_iff_count]
  intro x
  have h1 := count_set_add l i hi (l.getD j 0) x
  have h2 := count_set_add (l.set i (l.getD j 0)) j (by simpa using hj) (l.getD i 0) x
  have hg : (l.set i (l.getD j 0)).getD j 0 = l.getD j 0 := by
    by_cases hij : i = j
    · subst hij
      simp [List.getD_eq_getElem?_getD, List.getElem?_set_self hi]
    · simp [List.getD_eq_getElem?_getD, List.getElem?_set_ne hij]
  rw [hg] at h2
  rw [swapAt]
  split_ifs at h1 h2 <;> omega

/-- The Fisher-Yates loop returns a permutation of its input list. -/
theorem shuffleGo_perm : ∀ (t : ℕ) (l : List ℕ) (s : RngState), t < l.length →
    ((shuffleGo t l s).1).Perm l := by
  intro t
  induction t with
  | zero => intro l s _; exact List.Perm.refl l
  | succ i ih =>
    intro l s ht
    rw [shuffleGo]
    have hj : (drawIndex (i + 2) s).1 < l.length := by
      have hle : (drawIndex (i + 2) s).1 ≤ i + 1 := by
        rw [drawIndex]
        exact le_trans (min_le_right _ _) (by omega)
      omega
    have hlen : (swapAt l (i + 1) (drawIndex (i + 2) s).1).length = l.length := by
      simp [swapAt]
    refine (ih _ _ ?_).trans (swapAt_perm l (i + 1) _ ht hj)
    rw [hlen]; omega

/-- The modelled `rng.shuffle` returns a permutation of its input. -/
theorem shuffle_perm (l : List ℕ) (s : RngState) : ((shuffle l s).1).Perm l := by
  cases l with
  | nil => exact List.Perm.refl _
  | cons a t => exact shuffleGo_perm _ _ _ (by simp [shuffle])

/-- Members of the shuffled list are members of the input. -/
theorem shuffle_mem {l : List ℕ} {s : RngState} {i : ℕ}
    (h : i ∈ (shuffle l s).1) : i ∈ l :=
  (shuffle_perm l s).mem_iff.mp h

/-- Shuffling preserves the absence of duplicates. -/
theorem shuffle_nodup {l : List ℕ} {s : RngState} (h : l.Nodup) :
    ((shuffle l s).1).Nodup :=
  (shuffle_perm l s).symm.nodup h

/-- Setting hide flags preserves the scene length. -/
theorem setHideFlags_length (sc : List ObjState) (oi : ℕ) (b : Bool) :
    (setHideFlags sc oi b).length = sc.length := by
  simp [setHideFlags]

/-- Setting hide flags of one object leaves the others unchanged. -/
theorem setHideFlags_getD_ne (sc : List ObjState) (oi : ℕ) (b : Bool)
    (k : ℕ) (hk : k ≠ oi) :
    (setHideFlags sc oi b).getD k default = sc.getD k default := by
  simp [setHideFlags, List.getD_eq_getElem?_getD,
    List.getElem?_set_ne (Ne.symm hk)]

/-- Setting hide flags of an in-range object updates exactly its flags. -/
theorem setHideFlags_getD_self (sc : List ObjState) (oi : ℕ) (b : Bool)
    (hoi : oi < sc.length) :
    (setHideFlags sc oi b).getD oi default =
      { sc.getD oi default with hideViewport := b, hideRender := b } := by
  simp [setHideFlags, List.getD_eq_getElem?_getD, List.getElem?_set_self hoi]

/-- Raster footprints only depend on the object's own scene entry. -/
theorem rastAt_congr (geom : GeomModel) {st st' : EngineSt} {i : ℕ}
    (h : st'.scene.getD i default = st.scene.getD i default) :
    rastAt geom st' i = rastAt geom st i := by
  rw [rastAt, rastAt, h]

/-- The map value under a known map option. -/
theorem mapAt_eq_of_some {st : EngineSt} {m : Pix → ℕ}
    (h : st.map2d = some m) (p : Pix) : mapAt st p = m p := by
  rw [mapAt, h]; rfl

/-- Structural description of one attempt: the scene changes only at the
tried object, order is untouched, map presence is preserved; a rejected
attempt leaves `successfully_placed` and the map untouched, an accepting
attempt appends the object and (when a map is required) fills its raster
footprint with its 1-based original index — a footprint that, when 2D
overlap is disallowed, hit only zero pixels of the incoming map. -/
theorem attempt_ok (geom : GeomModel) (cfg : StoredConfig) (oi a : ℕ)
    (st st' : EngineSt) (b : Bool) (hoi : oi < st.scene.length)
    (h : attempt geom cfg oi a st = .ok (st', b)) :
    st'.scene.length = st.scene.length ∧
    (∀ k, k ≠ oi → st'.scene.getD k default = st.scene.getD k default) ∧
    st'.order = st.order ∧
    st'.map2d.isSome = st.map2d.isSome ∧
    (b = false → st'.placed = st.placed ∧ st'.map2d = st.map2d) ∧
    (b = true → st'.placed = st.placed ++ [oi] ∧
      (isMap2dRequired cfg = false → st'.map2d = st.map2d) ∧
      (∀ m, st.map2d = some m → isMap2dRequired cfg = true →
        st'.map2d = some (fillPoly (rastAt geom st' oi) (oi + 1) m)) ∧
      (∀ m, st.map2d = some m → cfg.intersection2d = false →
        ∀ p ∈ rastAt geom st' oi, m p = 0)) := by
  unfold attempt at h
  cases hsp : samplePose cfg (st.scene.getD oi default) st.rng with
  | error e => rw [hsp] at h; cases h
  | ok pr =>
    obtain ⟨obj1, rng1⟩ := pr
    rw [hsp] at h
    dsimp only at h
    split at h
    case isTrue hc =>
      cases h
      have hgetD : ∀ k, k ≠ oi →
          (st.scene.set oi obj1).getD k default = st.scene.getD k default := by
        intro k hk
        simp [List.getD_eq_getElem?_getD, List.getElem?_set_ne (Ne.symm hk)]
      have hself : (st.scene.set oi obj1).getD oi default = obj1 := by
        simp [List.getD_eq_getElem?_getD, List.getElem?_set_self hoi]
      refine ⟨by simp, hgetD, rfl, ?_, ?_, ?_⟩
      · cases hreq : isMap2dRequired cfg <;> simp [hreq]
      · intro hb; cases hb
      · intro _
        have hrast : rastAt geom
            ({ st with
                scene := st.scene.set oi obj1
                rng := rng1
                trace := st.trace ++ [DrawEvent.poseDraw oi a]
                placed := st.placed ++ [oi]
                map2d := if isMap2dRequired cfg then
                    st.map2d.map (fillPoly (geom.rasterize (geom.hullAt oi obj1)) (oi + 1))
                  else st.map2d } : EngineSt) oi
            = geom.rasterize (geom.hullAt oi obj1) := by
          rw [rastAt]
          dsimp only
          rw [hself]
        refine ⟨rfl, ?_, ?_, ?_⟩
        · intro hreq; simp [hreq]
        · intro m hm hreq
          rw [hrast]
          simp [hreq, hm]
        · intro m hm h2d p hp
          rw [hrast] at hp
          rw [checksPass] at hc
          simp only [Bool.and_eq_true, Bool.or_eq_true, Bool.not_eq_true'] at hc
          rcases hc.2 with h2 | hov
          · rw [h2d] at h2; cases h2
          · have : overlapsMap (geom.rasterize (geom.hullAt oi obj1)) m = false := by
              have heq : ({ st with
                  scene := st.scene.set oi obj1
                  rng := rng1
                  trace := st.trace ++ [DrawEvent.poseDraw oi a] } : EngineSt).map2d
                    = some m := hm
              rw [heq] at hov
              exact hov
            rw [overlapsMap, decide_eq_false_iff_not] at this
            push_neg at this
            exact this p hp
    case isFalse hc =>
      cases h
      refine ⟨by simp, ?_, rfl, rfl, fun _ => ⟨rfl, rfl⟩, ?_⟩
      · intro k hk
        simp [List.getD_eq_getElem?_getD, List.getElem?_set_ne (Ne.symm hk)]
      · intro hb; cases hb

/-- The attempt loop has the same structural footprint as a single attempt:
failures leave placement state untouched, and a success contributes one
accepted object whose raster facts hold against the loop's incoming map
(which rejected attempts never change). -/
theorem attemptsLoop_ok (geom : GeomModel) (cfg : StoredConfig) (oi : ℕ) :
    ∀ (n a : ℕ) (st st' : EngineSt) (b : Bool), oi < st.scene.length →
    attemptsLoop geom cfg oi n a st = .ok (st', b) →
    st'.scene.length = st.scene.length ∧
    (∀ k, k ≠ oi → st'.scene.getD k default = st.scene.getD k default) ∧
    st'.order = st.order ∧
    st'.map2d.isSome = st.map2d.isSome ∧
    (b = false → st'.placed = st.placed ∧ st'.map2d = st.map2d) ∧
    (b = true → st'.placed = st.placed ++ [oi] ∧
      (isMap2dRequired cfg = false → st'.map2d = st.map2d) ∧
      (∀ m, st.map2d = some m → isMap2dRequired cfg = true →
        st'.map2d = some (fillPoly (rastAt geom st' oi) (oi + 1) m)) ∧
      (∀ m, st.map2d = some m → cfg.intersection2d = false →
        ∀ p ∈ rastAt geom st' oi, m p = 0)) := by
  intro n
  induction n with
  | zero =>
    intro a st st' b hoi h
    rw [attemptsLoop] at h
    cases h
    exact ⟨rfl, fun k _ => rfl, rfl, rfl, fun _ => ⟨rfl, rfl⟩, fun hb => by cases hb⟩
  | succ n ih =>
    intro a st st' b hoi h
    rw [attemptsLoop] at h
    cases hat : attempt geom cfg oi a st with
    | error e => rw [hat] at h; cases h
    | ok pr =>
      obtain ⟨st1, b1⟩ := pr
      rw [hat] at h
      obtain ⟨hlen, hgetD, horder, hsome, hfail, hsucc⟩ :=
        attempt_ok geom cfg oi a st st1 b1 hoi hat
      cases b1 with
      | true =>
        cases h
        refine ⟨hlen, hgetD, horder, hsome, ?_, hsucc⟩
        intro hb; simp at hb
      | false =>
        obtain ⟨hpl1, hmap1⟩ := hfail rfl
        have hoi1 : oi < st1.scene.length := by rw [hlen]; exact hoi
        obtain ⟨hlen2, hgetD2, horder2, hsome2, hfail2, hsucc2⟩ :=
          ih (a + 1) st1 st' b hoi1 h
        refine ⟨hlen2.trans hlen, fun k hk => (hgetD2 k hk).trans (hgetD k hk),
          horder2.trans horder, hsome2.trans hsome, ?_, ?_⟩
        · intro hb
          obtain ⟨hp, hm⟩ := hfail2 hb
          exact ⟨hp.trans hpl1, hm.trans hmap1⟩
        · intro hb
          obtain ⟨hp, hreqf, hfill, h2d⟩ := hsucc2 hb
          refine ⟨by rw [hp, hpl1], fun hreq => (hreqf hreq).trans hmap1, ?_, ?_⟩
          · intro m hm hreq
            exact hfill m (by rw [hmap1, hm]) hreq
          · intro m hm h2
            exact h2d m (by rw [hmap1, hm]) h2

/-- One whole object placement (`placeOne`) seen structurally: only the
processed object's scene entry can change; a failed placement leaves the
placed set and map untouched, a successful one contributes the object with
the map facts of its accepting attempt. -/
theorem placeOne_ok (geom : GeomModel) (cfg : StoredConfig) (oi : ℕ)
    (st st' : EngineSt) (b : Bool) (hoi : oi < st.scene.length)
    (h : placeOne geom cfg oi st = .ok (st', b)) :
    st'.scene.length = st.scene.length ∧
    (∀ k, k ≠ oi → st'.scene.getD k default = st.scene.getD k default) ∧
    st'.order = st.order ∧
    st'.map2d.isSome = st.map2d.isSome ∧
    (b = false → st'.placed = st.placed ∧ st'.map2d = st.map2d) ∧
    (b = true → st'.placed = st.placed ++ [oi] ∧
      (isMap2dRequired cfg = false → st'.map2d = st.map2d) ∧
      (∀ m, st.map2d = some m → isMap2dRequired cfg = true →
        st'.map2d = some (fillPoly (rastAt geom st' oi) (oi + 1) m)) ∧
      (∀ m, st.map2d = some m → cfg.intersection2d = false →
        ∀ p ∈ rastAt geom st' oi, m p = 0)) := by
  unfold placeOne at h
  have hoiU : oi < (setHideFlags st.scene oi false).length := by
    rw [setHideFlags_length]; exact hoi
  cases hal : attemptsLoop geom cfg oi cfg.randomAttemptCount 0
      { st with scene := setHideFlags st.scene oi false } with
  | error e => rw [hal] at h; cases h
  | ok pr =>
    obtain ⟨st1, b1⟩ := pr
    rw [hal] at h
    obtain ⟨hlen, hgetD, horder, hsome, hfail, hsucc⟩ :=
      attemptsLoop_ok geom cfg oi cfg.randomAttemptCount 0
        { st with scene := setHideFlags st.scene oi false } st1 b1 hoiU hal
    have hgetDU : ∀ k, k ≠ oi → st1.scene.getD k default = st.scene.getD k default := by
      intro k hk
      rw [hgetD k hk]
      exact setHideFlags_getD_ne st.scene oi false k hk
    have hlenU : st1.scene.length = st.scene.length := by
      rw [hlen]; exact setHideFlags_length _ _ _
    cases b1 with
    | true =>
      cases h
      refine ⟨hlenU, hgetDU, horder, hsome, ?_, hsucc⟩
      intro hb; simp at hb
    | false =>
      cases h
      obtain ⟨hpl1, hmap1⟩ := hfail rfl
      refine ⟨by rw [setHideFlags_length]; exact hlenU, ?_, horder, hsome,
        fun _ => ⟨hpl1, hmap1⟩, fun hb => by cases hb⟩
      intro k hk
      rw [setHideFlags_getD_ne st1.scene oi true k hk]
      exact hgetDU k hk

/-- Placing one object (not placed before) preserves the engine invariant:
labels keep pointing at placed objects' footprints, and with 2D overlap
disallowed the accepted footprint was tested against the map, keeping the
placed footprints marked and pairwise disjoint. -/
theorem stinv_step (geom : GeomModel) (cfg : StoredConfig) (oi : ℕ)
    (st st1 : EngineSt) (b : Bool) (hoi : oi < st.scene.length)
    (hp : placeOne geom cfg oi st = .ok (st1, b))
    (hne : ∀ i ∈ st.placed, i ≠ oi)
    (hinv : StInv geom cfg st) : StInv geom cfg st1 := by
  obtain ⟨hlen, hgetD, horder, hsome, hfail, hsucc⟩ :=
    placeOne_ok geom cfg oi st st1 b hoi hp
  obtain ⟨hsomeInv, hlabels, h2dInv⟩ := hinv
  have hrast : ∀ i ∈ st.placed, rastAt geom st1 i = rastAt geom st i := by
    intro i hi
    exact rastAt_congr geom (hgetD i (hne i hi))
  cases b with
  | false =>
    obtain ⟨hpl, hmap⟩ := hfail rfl
    refine ⟨hsome.trans hsomeInv, ?_, ?_⟩
    · intro p hp0
      have hmapAt : ∀ q, mapAt st1 q = mapAt st q := by
        intro q; rw [mapAt, mapAt, hmap]
      rw [hmapAt] at hp0
      obtain ⟨i, hi, hv, hpR⟩ := hlabels p hp0
      exact ⟨i, by rw [hpl]; exact hi, by rw [hmapAt, hv], by rw [hrast i hi]; exact hpR⟩
    · intro h2
      obtain ⟨hcov, hdis⟩ := h2dInv h2
      constructor
      · intro i hi p hpR
        rw [hpl] at hi
        rw [hrast i hi] at hpR
        have := hcov i hi p hpR
        rw [mapAt, hmap]
        exact this
      · rw [PlacedDisjoint, hpl]
        refine hdis.imp_of_mem ?_
        intro a c ha hc hd
        rw [hrast a ha, hrast c hc]
        exact hd
  | true =>
    obtain ⟨hpl, hreqf, hreqt, h2df⟩ := hsucc rfl
    have hsub : ∀ i ∈ st.placed, i ∈ st1.placed := by
      intro i hi; rw [hpl]; exact List.mem_append_left _ hi
    have hoimem : oi ∈ st1.placed := by
      rw [hpl]; exact List.mem_append_right _ (by simp)
    cases hreq : isMap2dRequired cfg with
    | false =>
      have hint2 : cfg.intersection2d = true := by
        rw [isMap2dRequired, Bool.or_eq_false_iff] at hreq
        have := hreq.2
        cases hii : cfg.intersection2d
        · rw [hii] at this; simp at this
        · rfl
      have hmap := hreqf hreq
      refine ⟨hsome.trans hsomeInv, ?_, ?_⟩
      · intro p hp0
        have hmapAt : ∀ q, mapAt st1 q = mapAt st q := by
          intro q; rw [mapAt, mapAt, hmap]
        rw [hmapAt] at hp0
        obtain ⟨i, hi, hv, hpR⟩ := hlabels p hp0
        exact ⟨i, hsub i hi, by rw [hmapAt, hv], by rw [hrast i hi]; exact hpR⟩
      · intro h2
        rw [h2] at hint2; cases hint2
    | true =>
      obtain ⟨m, hm⟩ := Option.isSome_iff_exists.mp (by rw [hsomeInv, hreq])
      have hfill := hreqt m hm hreq
      have hmapAt1 : ∀ q, mapAt st1 q =
          fillPoly (rastAt geom st1 oi) (oi + 1) m q := by
        intro q; rw [mapAt, hfill]; rfl
      have hmAt : ∀ q, mapAt st q = m q := fun q => mapAt_eq_of_some hm q
      refine ⟨by rw [hfill, hreq]; rfl, ?_, ?_⟩
      · intro p hp0
        by_cases hpR : p ∈ rastAt geom st1 oi
        · refine ⟨oi, hoimem, ?_, hpR⟩
          rw [hmapAt1, fillPoly, if_pos hpR]
        · rw [hmapAt1, fillPoly, if_neg hpR] at hp0
          obtain ⟨i, hi, hv, hpR2⟩ := hlabels p (by rw [hmAt]; exact hp0)
          refine ⟨i, hsub i hi, ?_, by rw [hrast i hi]; exact hpR2⟩
          rw [hmapAt1, fillPoly, if_neg hpR, ← hmAt, hv]
      · intro h2
        obtain ⟨hcov, hdis⟩ := h2dInv h2
        have hzero := h2df m hm h2
        constructor
        · intro i hi p hpR
          rw [hpl, List.mem_append] at hi
          rcases hi with hi | hi
          · rw [hrast i hi] at hpR
            have hnz : mapAt st p ≠ 0 := hcov i hi p hpR
            rw [hmapAt1, fillPoly]
            by_cases hpO : p ∈ rastAt geom st1 oi
            · rw [if_pos hpO]; omega
            · rw [if_neg hpO, ← hmAt]; exact hnz
          · have hioi : i = oi := by simpa using hi
            subst hioi
            rw [hmapAt1, fillPoly, if_pos hpR]
            omega
        · rw [PlacedDisjoint, hpl]
          rw [List.pairwise_append]
          refine ⟨?_, by simp, ?_⟩
          · refine hdis.imp_of_mem ?_
            intro x y hx hy hd
            rw [hrast x hx, hrast y hy]
            exact hd
          · intro x hx y hy
            have hyoi : y = oi := by simpa using hy
            subst hyoi
            rw [hrast x hx]
            rw [Finset.disjoint_left]
            intro p hpx hpy
            have hnz : mapAt st p ≠ 0 := hcov x hx p hpx
            rw [hmAt] at hnz
            exact hnz (hzero p hpy)

/-- The object loop preserves the engine invariant when the remaining indices
are duplicate-free, in range, and disjoint from the already-placed set. -/
theorem objectsLoop_inv (geom : GeomModel) (cfg : StoredConfig) :
    ∀ (rest : List ℕ) (st st' : EngineSt),
    objectsLoop geom cfg rest st = .ok st' →
    rest.Nodup →
    (∀ i ∈ rest, i < st.scene.length) →
    (∀ i ∈ st.placed, i ∉ rest) →
    StInv geom cfg st →
    StInv geom cfg st' := by
  intro rest
  induction rest with
  | nil =>
    intro st st' h _ _ _ hinv
    rw [objectsLoop] at h
    cases h
    exact hinv
  | cons oi rest ih =>
    intro st st' h hnd hlt hnp hinv
    rw [objectsLoop] at h
    cases hp : placeOne geom cfg oi st with
    | error e => rw [hp] at h; cases h
    | ok pr =>
      obtain ⟨st1, b⟩ := pr
      rw [hp] at h
      dsimp only at h
      have hoi : oi < st.scene.length := hlt oi (by simp)
      have hne : ∀ i ∈ st.placed, i ≠ oi := by
        intro i hi hieq
        exact hnp i hi (by rw [hieq]; simp)
      have hinv1 : StInv geom cfg st1 :=
        stinv_step geom cfg oi st st1 b hoi hp hne hinv
      obtain ⟨hlen, _, _, _, hfail, hsucc⟩ := placeOne_ok geom cfg oi st st1 b hoi hp
      by_cases hbr : (!b && cfg.breakOnFirstFailed) = true
      · rw [if_pos hbr] at h
        cases h
        exact hinv1
      · rw [if_neg hbr] at h
        refine ih st1 st' h (List.Nodup.of_cons hnd) ?_ ?_ hinv1
        · intro i hi
          rw [hlen]
          exact hlt i (List.mem_cons_of_mem oi hi)
        · intro i hi
          cases b with
          | false =>
            obtain ⟨hpl, _⟩ := hfail rfl
            rw [hpl] at hi
            intro hmem
            exact hnp i hi (List.mem_cons_of_mem oi hmem)
          | true =>
            obtain ⟨hpl, _, _, _⟩ := hsucc rfl
            rw [hpl, List.mem_append] at hi
            rcases hi with hi | hi
            · intro hmem
              exact hnp i hi (List.mem_cons_of_mem oi hmem)
            · have : i = oi := by simpa using hi
              subst this
              exact (List.nodup_cons.mp hnd).1

/-- The state entering the object loop satisfies the engine invariant: the
map exists exactly when required and is all zero, and nothing is placed. -/
theorem stinv_initial (geom : GeomModel) (cfg : StoredConfig)
    (scene : List ObjState) (order : List ℕ) (rng : RngState) :
    StInv geom cfg
      ⟨hideAll scene, rng, initialMap cfg, [], order, [DrawEvent.permDraw]⟩ := by
  refine ⟨?_, ?_, fun _ => ⟨?_, ?_⟩⟩
  · cases h : isMap2dRequired cfg <;> simp [initialMap, h]
  · intro p hp
    exfalso
    apply hp
    cases h : isMap2dRequired cfg <;> simp [mapAt, initialMap, h]
  · intro i hi
    exact absurd hi (List.not_mem_nil i)
  · exact List.Pairwise.nil

/-- The whole placement call establishes the invariant on its result. -/
theorem onImageBegin_inv (geom : GeomModel) (cfg : StoredConfig)
    (scene : List ObjState) (rng : RngState) (r : EngineSt)
    (hr : onImageBegin geom cfg scene rng = .ok r) :
    StInv geom cfg r := by
  rw [onImageBegin] at hr
  refine objectsLoop_inv geom cfg (shuffle (List.range scene.length) rng).1 _ r hr
    (shuffle_nodup (List.nodup_range _)) ?_ ?_
    (stinv_initial geom cfg scene (shuffle (List.range scene.length) rng).1
      (shuffle (List.range scene.length) rng).2)
  · intro i hi
    have hlt := List.mem_range.mp (shuffle_mem hi)
    simpa [hideAll] using hlt
  · intro i hi
    exact absurd hi (List.not_mem_nil i)

/-- C8: when 2D overlap is disallowed (`intersection_2d=False`), the raster
footprints of the silhouettes of any two distinct successfully placed
objects, at their final poses, share no pixel: each acceptance tested its
footprint against the occupancy map, into which every earlier accepted
footprint had been filled. -/
theorem placed_silhouettes_pairwise_disjoint (geom : GeomModel)
    (cfg : StoredConfig) (scene : List ObjState) (rng : RngState) (r : EngineSt)
    (hr : onImageBegin geom cfg scene rng = .ok r)
    (h2 : cfg.intersection2d = false)
    (i j : ℕ) (hi : i ∈ r.placed) (hj : j ∈ r.placed) (hij : i ≠ j) :
    Disjoint (rastAt geom r i) (rastAt geom r j) := by
  obtain ⟨_, _, h2inv⟩ := onImageBegin_inv geom cfg scene rng r hr
  obtain ⟨_, hdis⟩ := h2inv h2
  have hdis' : r.placed.Pairwise
      (fun a c => Disjoint (rastAt geom r a) (rastAt geom r c)) := hdis
  exact List.Pairwise.forall (fun a c hac => hac.symm) hdis' hi hj hij

/-- Witness for C8 at the sample run: the two placed objects' footprints
`{(1, 0)}` and `{(0, 0)}` are disjoint. -/
theorem placed_silhouettes_pairwise_disjoint_witness :
    Disjoint (rastAt geomProbe runProbe 1) (rastAt geomProbe runProbe 0) :=
  placed_silhouettes_pairwise_disjoint geomProbe cfgProbe sceneProbe rngProbe
    runProbe rfl rfl 1 0 (by decide) (by decide) (by decide)

/-- C2, amended: whenever the placement call returns with an occupancy map,
every nonzero map pixel holds `i + 1` for some successfully placed object
`i` — `i` being the object's 0-based index in the handler's original
configured object list — and lies in that object's raster footprint at its
final pose. -/
theorem occupancy_label_is_original_index_succ (geom : GeomModel)
    (cfg : StoredConfig) (scene : List ObjState) (rng : RngState) (r : EngineSt)
    (hr : onImageBegin geom cfg scene rng = .ok r)
    (m : Pix → ℕ) (hm : r.map2d = some m) (p : Pix) (hp : m p ≠ 0) :
    ∃ i ∈ r.placed, m p = i + 1 ∧ p ∈ rastAt geom r i := by
  obtain ⟨_, hlabels, _⟩ := onImageBegin_inv geom cfg scene rng r hr
  obtain ⟨i, hi, hv, hR⟩ := hlabels p (by rw [mapAt, hm]; exact hp)
  rw [mapAt_eq_of_some hm] at hv
  exact ⟨i, hi, hv, hR⟩

/-- Witness for the amended C2 at the sample run: pixel `(1, 0)` holds label
`2 = 1 + 1` for placed object `1` (its original index), inside object `1`'s
footprint. -/
theorem occupancy_label_is_original_index_succ_witness :
    ∃ i ∈ runProbe.placed, mProbe (1, 0) = i + 1 ∧
      (1, 0) ∈ rastAt geomProbe runProbe i :=
  occupancy_label_is_original_index_succ geomProbe cfgProbe sceneProbe rngProbe
    runProbe rfl mProbe rfl (1, 0) (by decide)

/-- Each attempt appends exactly its own pose-draw event to the trace. -/
theorem attempt_trace (geom : GeomModel) (cfg : StoredConfig) (oi a : ℕ)
    (st st' : EngineSt) (b : Bool)
    (h : attempt geom cfg oi a st = .ok (st', b)) :
    st'.trace = st.trace ++ [DrawEvent.poseDraw oi a] := by
  unfold attempt at h
  cases hsp : samplePose cfg (st.scene.getD oi default) st.rng with
  | error e => rw [hsp] at h; cases h
  | ok pr =>
    obtain ⟨obj1, rng1⟩ := pr
    rw [hsp] at h
    dsimp only at h
    split at h <;> cases h <;> rfl

/-- The attempt loop only appends pose-draw events to the trace. -/
theorem attemptsLoop_trace (geom : GeomModel) (cfg : StoredConfig) (oi : ℕ) :
    ∀ (n a : ℕ) (st st' : EngineSt) (b : Bool),
    attemptsLoop geom cfg oi n a st = .ok (st', b) →
    ∃ t, st'.trace = st.trace ++ t ∧
      ∀ e ∈ t, ∃ k1 k2, e = DrawEvent.poseDraw k1 k2 := by
  intro n
  induction n with
  | zero =>
    intro a st st' b h
    rw [attemptsLoop] at h
    cases h
    exact ⟨[], by simp, by simp⟩
  | succ n ih =>
    intro a st st' b h
    rw [attemptsLoop] at h
    cases hat : attempt geom cfg oi a st with
    | error e => rw [hat] at h; cases h
    | ok pr =>
      obtain ⟨st1, b1⟩ := pr
      rw [hat] at h
      have ht1 := attempt_trace geom cfg oi a st st1 b1 hat
      cases b1 with
      | true =>
        cases h
        exact ⟨[DrawEvent.poseDraw oi a], ht1, by simp⟩
      | false =>
        obtain ⟨t, htr, hall⟩ := ih (a + 1) st1 st' b h
        refine ⟨DrawEvent.poseDraw oi a :: t, ?_, ?_⟩
        · rw [htr, ht1]; simp
        · intro e he
          rcases List.mem_cons.mp he with he | he
          · exact ⟨oi, a, he⟩
          · exact hall e he

/-- One object placement only appends pose-draw events to the trace. -/
theorem placeOne_trace (geom : GeomModel) (cfg : StoredConfig) (oi : ℕ)
    (st st' : EngineSt) (b : Bool)
    (h : placeOne geom cfg oi st = .ok (st', b)) :
    ∃ t, st'.trace = st.trace ++ t ∧
      ∀ e ∈ t, ∃ k1 k2, e = DrawEvent.poseDraw k1 k2 := by
  unfold placeOne at h
  cases hal : attemptsLoop geom cfg oi cfg.randomAttemptCount 0
      { st with scene := setHideFlags st.scene oi false } with
  | error e => rw [hal] at h; cases h
  | ok pr =>
    obtain ⟨st1, b1⟩ := pr
    rw [hal] at h
    obtain ⟨t, htr, hall⟩ := attemptsLoop_trace geom cfg oi cfg.randomAttemptCount 0
      { st with scene := setHideFlags st.scene oi false } st1 b1 hal
    cases b1 with
    | true => cases h; exact ⟨t, htr, hall⟩
    | false => cases h; exact ⟨t, htr, hall⟩

/-- The object loop only appends pose-draw events to the trace. -/
theorem objectsLoop_trace (geom : GeomModel) (cfg : StoredConfig) :
    ∀ (rest : List ℕ) (st st' : EngineSt),
    objectsLoop geom cfg rest st = .ok st' →
    ∃ t, st'.trace = st.trace ++ t ∧
      ∀ e ∈ t, ∃ k1 k2, e = DrawEvent.poseDraw k1 k2 := by
  intro rest
  induction rest with
  | nil =>
    intro st st' h
    rw [objectsLoop] at h
    cases h
    exact ⟨[], by simp, by simp⟩
  | cons oi rest ih =>
    intro st st' h
    rw [objectsLoop] at h
    cases hp : placeOne geom cfg oi st with
    | error e => rw [hp] at h; cases h
    | ok pr =>
      obtain ⟨st1, b⟩ := pr
      rw [hp] at h
      dsimp only at h
      obtain ⟨t1, htr1, hall1⟩ := placeOne_trace geom cfg oi st st1 b hp
      by_cases hbr : (!b && cfg.breakOnFirstFailed) = true
      · rw [if_pos hbr] at h
        cases h
        exact ⟨t1, htr1, hall1⟩
      · rw [if_neg hbr] at h
        obtain ⟨t2, htr2, hall2⟩ := ih st1 st' h
        refine ⟨t1 ++ t2, ?_, ?_⟩
        · rw [htr2, htr1, List.append_assoc]
        · intro e he
          rcases List.mem_append.mp he with he | he
          · exact hall1 e he
          · exact hall2 e he

/-- C1: the placement call is a pure function of the seed state, the object
list and the configuration — two runs from identical random-stream states
yield identical results (poses, visibility, map, order, trace) — and the
shared stream is consumed in the fixed order: the trace starts with the
single permutation draw of the object indices and everything after it is a
per-object per-attempt pose draw. -/
theorem placement_replay_deterministic (geom : GeomModel) (cfg : StoredConfig)
    (scene : List ObjState) (s1 s2 : RngState) (r : EngineSt)
    (hseed : s1 = s2) (hrun : onImageBegin geom cfg scene s1 = .ok r) :
    onImageBegin geom cfg scene s2 = .ok r ∧
    ∃ t, r.trace = DrawEvent.permDraw :: t ∧
      ∀ e ∈ t, ∃ i a, e = DrawEvent.poseDraw i a := by
  subst hseed
  refine ⟨hrun, ?_⟩
  rw [onImageBegin] at hrun
  obtain ⟨t, htr, hall⟩ := objectsLoop_trace geom cfg _ _ r hrun
  exact ⟨t, by simpa using htr, hall⟩

/-- Witness for C1 at a concrete run (empty scene): replay returns the same
result and the trace is exactly the permutation draw. -/
theorem placement_replay_deterministic_witness :
    onImageBegin geomProbe cfgTriv [] [] = .ok runTriv ∧
    ∃ t, runTriv.trace = DrawEvent.permDraw :: t ∧
      ∀ e ∈ t, ∃ i a, e = DrawEvent.poseDraw i a :=
  placement_replay_deterministic geomProbe cfgTriv [] [] [] runTriv rfl rfl

/-- The attempt loop, when every attempt fails, leaves the object's scene
entry at the pose reached by iterating the pose-sampling step, with the
random stream advanced identically. -/
theorem attemptsLoop_pose (geom : GeomModel) (cfg : StoredConfig) (oi : ℕ) :
    ∀ (n a : ℕ) (st st' : EngineSt), oi < st.scene.length →
    attemptsLoop geom cfg oi n a st = .ok (st', false) →
    iteratePose cfg n (st.scene.getD oi default) st.rng
      = .ok (st'.scene.getD oi default, st'.rng) := by
  intro n
  induction n with
  | zero =>
    intro a st st' hoi h
    rw [attemptsLoop] at h
    cases h
    rfl
  | succ n ih =>
    intro a st st' hoi h
    rw [attemptsLoop] at h
    cases hat : attempt geom cfg oi a st with
    | error e => rw [hat] at h; cases h
    | ok pr =>
      obtain ⟨st1, b1⟩ := pr
      rw [hat] at h
      cases b1 with
      | true => simp at h
      | false =>
        unfold attempt at hat
        cases hsp : samplePose cfg (st.scene.getD oi default) st.rng with
        | error e => rw [hsp] at hat; cases hat
        | ok pr2 =>
          obtain ⟨obj1, rng1⟩ := pr2
          rw [hsp] at hat
          dsimp only at hat
          rw [iteratePose, hsp]
          dsimp only
          split at hat
          case isTrue hc => simp at hat
          case isFalse hc =>
            cases hat
            have hoi1 : oi < (st.scene.set oi obj1).length := by simpa using hoi
            have hres := ih (a + 1) _ st' (by simpa using hoi) h
            have hself : (st.scene.set oi obj1).getD oi default = obj1 := by
              simp [List.getD_eq_getElem?_getD, List.getElem?_set_self hoi]
            rw [hself] at hres
            exact hres

/-- C9: when an object exhausts its attempt budget, the failure handling
only flips its two hide flags to `True`; its location and rotation stay
exactly at the pose drawn in the last (failed) attempt — the pose obtained
by iterating the sampling step over all attempts — and nothing else (placed
set, occupancy map, other objects) changes. -/
theorem failed_object_keeps_last_drawn_pose (geom : GeomModel)
    (cfg : StoredConfig) (oi : ℕ) (st st' : EngineSt)
    (hoi : oi < st.scene.length)
    (h : placeOne geom cfg oi st = .ok (st', false)) :
    (∃ o s', iteratePose cfg cfg.randomAttemptCount
        { st.scene.getD oi default with hideViewport := false, hideRender := false }
        st.rng = .ok (o, s') ∧
      st'.scene.getD oi default = { o with hideViewport := true, hideRender := true } ∧
      st'.rng = s') ∧
    st'.placed = st.placed ∧
    st'.map2d = st.map2d ∧
    (∀ k, k ≠ oi → st'.scene.getD k default = st.scene.getD k default) := by
  have hstruct := placeOne_ok geom cfg oi st st' false hoi h
  obtain ⟨hlen, hgetD, _, _, hfail, _⟩ := hstruct
  obtain ⟨hpl, hmap⟩ := hfail rfl
  refine ⟨?_, hpl, hmap, hgetD⟩
  unfold placeOne at h
  cases hal : attemptsLoop geom cfg oi cfg.randomAttemptCount 0
      { st with scene := setHideFlags st.scene oi false } with
  | error e => rw [hal] at h; cases h
  | ok pr =>
    obtain ⟨st1, b1⟩ := pr
    rw [hal] at h
    cases b1 with
    | true => simp at h
    | false =>
      cases h
      have hoiU : oi < (setHideFlags st.scene oi false).length := by
        rw [setHideFlags_length]; exact hoi
      have hpose := attemptsLoop_pose geom cfg oi cfg.randomAttemptCount 0
        { st with scene := setHideFlags st.scene oi false } st1 hoiU hal
      have hU : (setHideFlags st.scene oi false).getD oi default =
          { st.scene.getD oi default with hideViewport := false, hideRender := false } :=
        setHideFlags_getD_self st.scene oi false hoi
      have hlen1 : oi < st1.scene.length := by
        obtain ⟨hlen1, _, _, _, _, _⟩ := attemptsLoop_ok geom cfg oi
          cfg.randomAttemptCount 0
          { st with scene := setHideFlags st.scene oi false } st1 false hoiU hal
        rw [hlen1]
        exact hoiU
      refine ⟨st1.scene.getD oi default, st1.rng, ?_, ?_, rfl⟩
      · rw [← hU]
        exact hpose
      · exact setHideFlags_getD_self st1.scene oi true hlen1

/-- Witness for C9 at a concrete failing run: with an always-rejecting
bounds check, two attempts and the unit location range, the object ends
hidden at the second drawn location `(1/5, 1/6, 1/7)`. -/
theorem failed_object_keeps_last_drawn_pose_witness :
    (∃ o s', iteratePose cfgRej cfgRej.randomAttemptCount
        { stRej.scene.getD 0 default with hideViewport := false, hideRender := false }
        stRej.rng = .ok (o, s') ∧
      stRej'.scene.getD 0 default = { o with hideViewport := true, hideRender := true } ∧
      stRej'.rng = s') ∧
    stRej'.placed = stRej.placed ∧
    stRej'.map2d = stRej.map2d ∧
    (∀ k, k ≠ 0 → stRej'.scene.getD k default = stRej.scene.getD k default) :=
  failed_object_keeps_last_drawn_pose geomRej cfgRej 0 stRej stRej'
    (by decide) rfl

end BlenderDataset
